import Mathlib

/-!
# A shallow embedding of the rxpress HTTP request/response core

This file models, in Lean, the message parsing, routing and response
serialization core of the `rxpress` crate, and proves the behavioural
properties claimed in the specification against that model.

Modelling conventions:
* Rust `HashMap<String, String>` is modelled as an association list
  (`List (String × String)`) with upsert insertion (`insertAssoc`) and
  first-hit lookup (`getAssoc`).  All claims depend only on lookup and
  membership, which are iteration-order independent, so the difference in
  iteration order between a hash map and an insertion-ordered list is
  irrelevant to the statements proved here.
* The `TcpStream` is modelled by a `wire : List String` field on the
  response: each successful `write_response` appends exactly one fully
  serialized message.  I/O failures of the underlying stream are outside
  the model (the source logs and stops on failure; nothing downstream
  observes it).
* Rust's C-like `HttpStatus` enum is modelled by its numeric
  discriminant (`code()` is the identity on the discriminant); the
  `reason` lookup table is transcribed in full.
* `fn` handler pointers are opaque callables; they are modelled by an
  opaque numeric identifier, and dispatch returns which handler would be
  invoked together with the request state it would receive.
* `char::to_uppercase` / `to_ascii_lowercase` / `eq_ignore_ascii_case`
  are modelled on the ASCII range, which is where every string compared
  by this program (method tokens, header names) lives.
-/

/-- ASCII lower-casing of one character, as in Rust `to_ascii_lowercase`. -/
def asciiLowerChar (c : Char) : Char :=
  if 'A' ≤ c ∧ c ≤ 'Z' then Char.ofNat (c.toNat + 32) else c

/-- ASCII upper-casing of one character, modelling `char::to_uppercase` on ASCII. -/
def asciiUpperChar (c : Char) : Char :=
  if 'a' ≤ c ∧ c ≤ 'z' then Char.ofNat (c.toNat - 32) else c

/-- ASCII lower-casing of a string, as in Rust `str::to_ascii_lowercase`. -/
def asciiLower (s : String) : String := (s.toList.map asciiLowerChar).asString

/-- Upper-casing of a string, modelling Rust `str::to_uppercase` on ASCII input. -/
def asciiUpper (s : String) : String := (s.toList.map asciiUpperChar).asString

/-- Rust `str::eq_ignore_ascii_case`. -/
def eqIgnoreAsciiCase (a b : String) : Bool := asciiLower a == asciiLower b

/-- `HashMap::insert`: upsert a key/value pair (replace in place, else append). -/
def insertAssoc (m : List (String × String)) (k v : String) : List (String × String) :=
  if m.any (fun p => p.1 == k) then
    m.map (fun p => if p.1 == k then (k, v) else p)
  else
    m ++ [(k, v)]

/-- `HashMap::get`: exact-key lookup. -/
def getAssoc (m : List (String × String)) (k : String) : Option String :=
  (m.find? (fun p => p.1 == k)).map (fun p => p.2)

/-- The worker behind `splitBy`: cut the remaining characters at every
separator position, `acc` holding the current piece reversed. -/
def splitByAux (p : Char → Bool) : List Char → List Char → List String
  | [], acc => [acc.reverse.asString]
  | c :: cs, acc =>
    if p c then acc.reverse.asString :: splitByAux p cs []
    else splitByAux p cs (c :: acc)

/-- Rust `str::split` with a character predicate: every separator
occurrence cuts, so adjacent separators yield empty pieces. -/
def splitBy (p : Char → Bool) (s : String) : List String := splitByAux p s.toList []

/-- Rust `str::split(sep)` for a single-character separator. -/
def splitChar (sep : Char) (s : String) : List String := splitBy (fun c => c == sep) s

/-- Rust `str::split_whitespace`: split on whitespace, dropping empty pieces. -/
def splitWhitespace (s : String) : List String :=
  (splitBy Char.isWhitespace s).filter (fun t => !t.isEmpty)

/-- The worker behind `splitOnceChar`. -/
def splitOnceAux (sep : Char) : List Char → List Char → Option (String × String)
  | [], _ => none
  | c :: cs, acc =>
    if c == sep then some (acc.reverse.asString, cs.asString)
    else splitOnceAux sep cs (c :: acc)

/-- Rust `str::split_once(sep)`: split at the first occurrence of the
separator character, if any. -/
def splitOnceChar (sep : Char) (s : String) : Option (String × String) :=
  splitOnceAux sep s.toList []

/-- Rust `str::starts_with(c)` for a single character. -/
def startsWithChar (c : Char) (s : String) : Bool :=
  match s.toList with
  | [] => false
  | x :: _ => x == c

/-- Rust `str::trim_start_matches(':')`: drop every leading colon. -/
def trimStartColons (s : String) : String :=
  (s.toList.dropWhile (fun c => c == ':')).asString

/-- `HttpStatus::reason` from `status.rs`: the fixed reason-phrase table;
unknown codes resolve to the empty string. -/
def HttpStatus.reason (code : Nat) : String :=
  match code with
  | 100 => "Continue"
  | 101 => "Switching Protocols"
  | 102 => "Processing"
  | 103 => "Early Hints"
  | 200 => "OK"
  | 201 => "Created"
  | 202 => "Accepted"
  | 203 => "Non-Authoritative Information"
  | 204 => "No Content"
  | 205 => "Reset Content"
  | 206 => "Partial Content"
  | 207 => "Multi-Status"
  | 208 => "Already Reported"
  | 226 => "IM Used"
  | 300 => "Multiple Choices"
  | 301 => "Moved Permanently"
  | 302 => "Found"
  | 303 => "See Other"
  | 304 => "Not Modified"
  | 305 => "Use Proxy"
  | 307 => "Temporary Redirect"
  | 308 => "Permanent Redirect"
  | 400 => "Bad Request"
  | 401 => "Unauthorized"
  | 402 => "Payment Required"
  | 403 => "Forbidden"
  | 404 => "Not Found"
  | 405 => "Method Not Allowed"
  | 406 => "Not Acceptable"
  | 407 => "Proxy Authentication Required"
  | 408 => "Request Timeout"
  | 409 => "Conflict"
  | 410 => "Gone"
  | 411 => "Length Required"
  | 412 => "Precondition Failed"
  | 413 => "Payload Too Large"
  | 414 => "URI Too Long"
  | 415 => "Unsupported Media Type"
  | 416 => "Range Not Satisfiable"
  | 417 => "Expectation Failed"
  | 418 => "I'm a Teapot"
  | 421 => "Misdirected Request"
  | 422 => "Unprocessable Entity"
  | 423 => "Locked"
  | 424 => "Failed Dependency"
  | 425 => "Too Early"
  | 426 => "Upgrade Required"
  | 428 => "Precondition Required"
  | 429 => "Too Many Requests"
  | 431 => "Request Header Fields Too Large"
  | 451 => "Unavailable For Legal Reasons"
  | 500 => "Internal Server Error"
  | 501 => "Not Implemented"
  | 502 => "Bad Gateway"
  | 503 => "Service Unavailable"
  | 504 => "Gateway Timeout"
  | 505 => "HTTP Version Not Supported"
  | 506 => "Variant Also Negotiates"
  | 507 => "Insufficient Storage"
  | 508 => "Loop Detected"
  | 510 => "Not Extended"
  | 511 => "Network Authentication Required"
  | _ => ""

/-- `StatusArg` from `status.rs`, as consumed by `Response::status`:
an `HttpStatus` enum value (carried as its discriminant), a bare code,
or a code together with a custom reason. -/
inductive StatusArg where
  | Enum (code : Nat)
  | Code (code : Nat)
  | CodeReason (code : Nat) (reason : String)
deriving DecidableEq

/-- The `Request` struct from `http/request.rs`. -/
structure Request where
  method : String
  path : String
  headers : List (String × String)
  version : String
  query : List (String × String)
  params : List (String × String)
  body : String
deriving DecidableEq

/-- `Request::parse_query`: split the query string on `&`; each piece is
split on its first `=` (a piece without `=` maps to the empty string);
later duplicate keys overwrite earlier ones. -/
def Request.parse_query (q : String) : List (String × String) :=
  (splitChar '&' q).foldl
    (fun map pair =>
      match splitOnceChar '=' pair with
      | some (k, v) => insertAssoc map k v
      | none => insertAssoc map pair "")
    []

/-- `Request::new`: split the request line on whitespace; exactly three
tokens give method, raw target and version, anything else falls back to
`GET / HTTP/1.1`; the raw target is split on the first `?` into path and
query string. -/
def Request.new (request_line : String) (headers : List (String × String))
    (body : String) : Request :=
  let parts := splitWhitespace request_line
  let mfv :=
    match parts with
    | [m, p, v] => (m, p, v)
    | _ => ("GET", "/", "HTTP/1.1")
  let pq :=
    match splitOnceChar '?' mfv.2.1 with
    | some (p, q) => (p, Request.parse_query q)
    | none => (mfv.2.1, ([] : List (String × String)))
  { method := mfv.1
    path := pq.1
    headers := headers
    version := mfv.2.2
    query := pq.2
    params := []
    body := body }

/-- `Request::header`: first entry whose key equals the query under
ASCII-case-insensitive comparison. -/
def Request.header (req : Request) (key : String) : Option String :=
  (req.headers.find? (fun p => eqIgnoreAsciiCase p.1 key)).map (fun p => p.2)

/-- `Request::header_or`: exact-key lookup with a default. -/
def Request.header_or (req : Request) (key default : String) : String :=
  (getAssoc req.headers key).getD default

/-- `Request::header_expect`: exact-key lookup, or a descriptive error. -/
def Request.header_expect (req : Request) (key : String) : Except String String :=
  match getAssoc req.headers key with
  | some v => Except.ok v
  | none => Except.error ("[rxpress error]: Required header `" ++ key ++
      "` is missing. Please include it in your request, e.g., `" ++ key ++ ": value`.")

/-- `Request::param`: exact-key lookup in the route-parameter map. -/
def Request.param (req : Request) (key : String) : Option String :=
  getAssoc req.params key

/-- The `Response` struct from `http/response.rs`.  The `TcpStream` is
replaced by a `wire` journal: every successful `write_response` appends
one serialized message.  `status_enum` carries the discriminant of the
write-only `status: HttpStatus` field. -/
structure Response where
  headers : List (String × String)
  status_enum : Nat
  status_code : Nat
  status_reason : String
  sent : Bool
  wire : List String
deriving DecidableEq

/-- `Response::new`: default `200 OK`, unsent, with the single
`HTTP-Server-Powered-By: rxpress` header preinstalled. -/
def Response.new : Response :=
  { headers := [("HTTP-Server-Powered-By", "rxpress")]
    status_enum := 200
    status_code := 200
    status_reason := "OK"
    sent := false
    wire := [] }

/-- `Response::status`: three input shapes; each call overwrites the
previous status entirely.  `Enum` resolves the reason via the table from
the discriminant, `Code` resolves it via the table, `CodeReason` takes
the reason verbatim. -/
def Response.status (res : Response) (arg : StatusArg) : Response :=
  match arg with
  | StatusArg.Enum e =>
      { res with status_enum := e, status_code := e,
                 status_reason := HttpStatus.reason e }
  | StatusArg.Code code =>
      { res with status_code := code,
                 status_reason := HttpStatus.reason code }
  | StatusArg.CodeReason code reason =>
      { res with status_code := code, status_reason := reason }

/-- `Response::set_header`: upsert a header; no case folding at write time. -/
def Response.set_header (res : Response) (key value : String) : Response :=
  { res with headers := insertAssoc res.headers key value }

/-- The header lines of the serialized response, `"Key: Value"` each. -/
def headerLines (headers : List (String × String)) : List String :=
  headers.map (fun p => p.1 ++ ": " ++ p.2)

/-- The head of the serialized response: status line, header block, the
computed `Content-Length`, and the blank separator line. -/
def serializeHead (res : Response) (msgLen : Nat) : String :=
  "HTTP/1.1 " ++ toString res.status_code ++ " " ++ res.status_reason ++ "\r\n" ++
  String.intercalate "\r\n" (headerLines res.headers) ++
  "\r\nContent-Length: " ++ toString msgLen ++ "\r\n\r\n"

/-- `Response::write_response`: serialize head then body and write them
to the wire, as one message of this journal. -/
def Response.write_response (res : Response) (msg : String) : Response :=
  { res with wire := res.wire ++ [serializeHead res msg.utf8ByteSize ++ msg] }

/-- `Response::send`: guarded by `sent`; sets `Content-Type: text/plain`
and performs the one-time finalize. -/
def Response.send (res : Response) (msg : String) : Response :=
  if res.sent then res
  else
    let res := { res with sent := true }
    let res := res.set_header "Content-Type" "text/plain"
    res.write_response msg

/-- `Response::json`: guarded by `sent`; sets
`Content-Type: application/json` and finalizes. -/
def Response.json (res : Response) (msg : String) : Response :=
  if res.sent then res
  else
    let res := { res with sent := true }
    let res := res.set_header "Content-Type" "application/json"
    res.write_response msg

/-- `Response::html`: guarded by `sent`; sets
`Content-Type: text/html; charset=utf-8` and finalizes. -/
def Response.html (res : Response) (body : String) : Response :=
  if res.sent then res
  else
    let res := { res with sent := true }
    let res := res.set_header "Content-Type" "text/html; charset=utf-8"
    res.write_response body

/-- The generated error body of `Response::html_file` for an unreadable path. -/
def missingFileBody (path : String) : String :=
  "<h2>Internal Server Error</h2>\n<p>No file found on " ++ path ++ "</p>"

/-- `Response::html_file`: guarded by `sent`; reads through the
filesystem collaborator `fs` (`fs::read_to_string` modelled as
`String → Option String`).  On success behaves like `html` with the file
contents; on failure overrides the status to 500
(`HttpStatus::InternalServerError`) and writes the generated body. -/
def Response.html_file (fs : String → Option String) (res : Response)
    (path : String) : Response :=
  if res.sent then res
  else
    let res := { res with sent := true }
    let res := res.set_header "Content-Type" "text/html; charset=utf-8"
    match fs path with
    | some content => res.write_response content
    | none =>
        let res := res.status (StatusArg.Enum 500)
        res.write_response (missingFileBody path)

/-- The `Route` struct from `router/route.rs`; the `fn` handler pointer
is modelled by an opaque identifier. -/
structure Route where
  method : String
  path : String
  handler : Nat
deriving DecidableEq

/-- `Route::new` stores method and path exactly as given. -/
def Route.new (method path : String) (handler : Nat) : Route :=
  { method := method, path := path, handler := handler }

/-- The segment-pair walk of `Route::matches`: a pattern segment starting
with `:` binds its colon-stripped name to the request segment when that
segment is non-empty (and is otherwise satisfied without binding); a
literal segment must be exactly equal or the walk fails, keeping the
insertions already made. -/
def matchSegs : List (String × String) → List (String × String) →
    Bool × List (String × String)
  | [], params => (true, params)
  | (r, p) :: rest, params =>
    if startsWithChar ':' r then
      let key := trimStartColons r
      let params' := if !p.isEmpty then insertAssoc params key p else params
      matchSegs rest params'
    else if r ≠ p then (false, params)
    else matchSegs rest params

/-- `Route::matches`: the stored method must equal the upper-cased
request method; pattern and request path are split on `/` and must have
equal segment counts; then the segment walk runs, mutating `req.params`
in place (the insertions persist even when the walk ultimately fails). -/
def Route.matches (route : Route) (req : Request) : Bool × Request :=
  if route.method ≠ asciiUpper req.method then (false, req)
  else
    let route_parts := splitChar '/' route.path
    let req_parts := splitChar '/' req.path
    if route_parts.length ≠ req_parts.length then (false, req)
    else
      let bp := matchSegs (route_parts.zip req_parts) req.params
      (bp.1, { req with params := bp.2 })

/-- The outcome of `Router::handle`: either the opaque handler of the
first matching route is invoked with the request as mutated so far, or
no route matched and the router finalized the 404 response itself. -/
inductive DispatchResult where
  | invoked (handler : Nat) (req : Request)
  | notFound (res : Response)
deriving DecidableEq

/-- The loop of `Router::handle` over the route list: first match wins
and its handler is invoked; candidate mutations of `req.params` are
threaded through; when the list is exhausted the router answers
`status(404).send("404 Not Found")`. -/
def handleRoutes : List Route → Request → Response → DispatchResult
  | [], _, res =>
      DispatchResult.notFound ((res.status (StatusArg.Code 404)).send "404 Not Found")
  | route :: rest, req, res =>
      let bp := route.matches req
      if bp.1 then DispatchResult.invoked route.handler bp.2
      else handleRoutes rest bp.2 res

/-- The `Router` struct: an append-only ordered list of routes. -/
structure Router where
  routes : List Route
deriving DecidableEq

/-- `Router::new`: empty route list. -/
def Router.new : Router := { routes := [] }

/-- `Router::add_route`: append a new route. -/
def Router.add_route (r : Router) (method path : String) (handler : Nat) : Router :=
  { routes := r.routes ++ [Route.new method path handler] }

/-- `Router::handle`: dispatch over the registered routes in order. -/
def Router.handle (r : Router) (req : Request) (res : Response) : DispatchResult :=
  handleRoutes r.routes req res


/-!
## Helper lemmas

Facts about the association-list model of `HashMap`, the segment walk
of `Route::matches`, and the query-pair fold of `parse_query`, used by
the claim theorems below.
-/
theorem insertAssoc_cons_ne (a : String × String) (t : List (String × String))
    (k v : String) (h : a.1 ≠ k) :
    insertAssoc (a :: t) k v = a :: insertAssoc t k v := by
  have hb : (a.1 == k) = false := by simpa using h
  by_cases ht : (t.any fun p => p.1 == k) = true
  · simp [insertAssoc, hb, ht]
    exact fun hc => absurd hc h
  · simp [insertAssoc, hb, ht]

theorem getAssoc_map_overwrite_ne (t : List (String × String)) (k v k' : String)
    (h : k ≠ k') :
    getAssoc (t.map (fun p => if p.1 == k then (k, v) else p)) k' = getAssoc t k' := by
  induction t with
  | nil => rfl
  | cons a t ih =>
    by_cases ha : a.1 = k
    · have hb : (a.1 == k) = true := by simpa using ha
      have hkne : ((k : String) == k') = false := by simpa using h
      have hane : (a.1 == k') = false := by rw [ha]; exact hkne
      simp only [getAssoc, List.map_cons, List.find?, hb, if_true, hkne, hane] at ih ⊢
      exact ih
    · have hb : (a.1 == k) = false := by simpa using ha
      by_cases hk : a.1 = k'
      · have hb2 : (a.1 == k') = true := by simpa using hk
        simp [getAssoc, List.find?, hb, hb2]
      · have hb2 : (a.1 == k') = false := by simpa using hk
        simp [getAssoc, List.find?, hb, hb2] at ih ⊢
        exact ih

theorem getAssoc_insertAssoc (m : List (String × String)) (k v k' : String) :
    getAssoc (insertAssoc m k v) k' = if k = k' then some v else getAssoc m k' := by
  induction m with
  | nil =>
    by_cases h : k = k'
    · have hb : ((k : String) == k') = true := by simpa using h
      simp [insertAssoc, getAssoc, List.find?, hb, h]
    · have hb : ((k : String) == k') = false := by simpa using h
      simp [insertAssoc, getAssoc, List.find?, hb, h]
  | cons a t ih =>
    by_cases ha : a.1 = k
    · have hb : (a.1 == k) = true := by simpa using ha
      have hins : insertAssoc (a :: t) k v =
          (k, v) :: t.map (fun p => if p.1 == k then (k, v) else p) := by
        simp [insertAssoc, hb]
        exact fun hc => absurd ha hc
      rw [hins]
      by_cases hk : k = k'
      · have hb2 : ((k : String) == k') = true := by simpa using hk
        simp [getAssoc, List.find?, hb2, hk]
      · have hb2 : ((k : String) == k') = false := by simpa using hk
        have hane : (a.1 == k') = false := by rw [ha]; exact hb2
        simp only [getAssoc, List.find?, hb2, hane]
        rw [if_neg hk]
        have hmap := getAssoc_map_overwrite_ne t k v k' hk
        simpa [getAssoc] using hmap
    · rw [insertAssoc_cons_ne a t k v ha]
      by_cases hk : a.1 = k'
      · have hb2 : (a.1 == k') = true := by simpa using hk
        have hkk : k ≠ k' := fun he => ha (hk.trans he.symm)
        simp [getAssoc, List.find?, hb2, hkk]
      · have hb2 : (a.1 == k') = false := by simpa using hk
        simp only [getAssoc, List.find?, hb2] at ih ⊢
        exact ih

theorem find?_congr_pred {α : Type} (l : List α) (p q : α → Bool)
    (h : ∀ a ∈ l, p a = q a) : l.find? p = l.find? q := by
  induction l with
  | nil => rfl
  | cons a t ih =>
    have ha := h a (List.mem_cons_self a t)
    simp only [List.find?, ha]
    cases hq : q a with
    | true => rfl
    | false => exact ih (fun b hb => h b (List.mem_cons_of_mem a hb))

/-- The binding produced for parameter name `k` by a list of
(pattern segment, request segment) pairs: the value of the last pair
whose pattern segment is a `:`-binder for `k` with a non-empty request
segment, if any. -/
def lastBind : List (String × String) → String → Option String
  | [], _ => none
  | (r, p) :: rest, k =>
    match lastBind rest k with
    | some v => some v
    | none =>
      if startsWithChar ':' r = true ∧ trimStartColons r = k ∧ p ≠ "" then some p
      else none

theorem matchSegs_fst_indep (l : List (String × String))
    (ps1 ps2 : List (String × String)) :
    (matchSegs l ps1).1 = (matchSegs l ps2).1 := by
  induction l generalizing ps1 ps2 with
  | nil => rfl
  | cons rp rest ih =>
    obtain ⟨r, p⟩ := rp
    by_cases hc : startsWithChar ':' r = true
    · simp only [matchSegs, hc, if_true]
      exact ih _ _
    · simp only [matchSegs, hc, if_false]
      by_cases hr : r ≠ p
      · simp [hr]
      · simp only [hr, if_false]
        exact ih _ _

theorem matchSegs_getAssoc (l : List (String × String))
    (hl : ∀ rp ∈ l, startsWithChar ':' rp.1 = true ∨ rp.1 = rp.2)
    (ps : List (String × String)) (k : String) :
    getAssoc (matchSegs l ps).2 k =
      match lastBind l k with
      | some v => some v
      | none => getAssoc ps k := by
  induction l generalizing ps with
  | nil => rfl
  | cons rp rest ih =>
    obtain ⟨r, p⟩ := rp
    have hrest : ∀ x ∈ rest, startsWithChar ':' x.1 = true ∨ x.1 = x.2 :=
      fun x hx => hl x (List.mem_cons_of_mem _ hx)
    cases hcb : startsWithChar ':' r with
    | true =>
      cases hpe : p.isEmpty with
      | true =>
        have hp : p = "" := (String.isEmpty_iff p).mp hpe
        simp only [matchSegs, lastBind, hcb, hpe, if_true, Bool.not_true,
          Bool.false_eq_true, if_false]
        rw [ih hrest]
        cases hb : lastBind rest k with
        | some v => simp
        | none => simp [hp]
      | false =>
        have hp : p ≠ "" := fun hx => by
          rw [hx] at hpe
          exact Bool.true_eq_false.mp ((String.isEmpty_iff "").mpr rfl ▸ hpe)
        simp only [matchSegs, lastBind, hcb, hpe, if_true, Bool.not_false,
          eq_self_iff_true]
        rw [ih hrest]
        cases hb : lastBind rest k with
        | some v => simp
        | none =>
          rw [getAssoc_insertAssoc]
          by_cases hk : trimStartColons r = k
          · simp [hk, hp]
          · simp [hk, hp]
    | false =>
      have hr : r = p := by
        rcases hl (r, p) (List.mem_cons_self _ _) with h | h
        · rw [hcb] at h; exact absurd h (by simp)
        · exact h
      have hne : ¬(r ≠ p) := fun hx => hx hr
      simp only [matchSegs, lastBind, hcb, hne, Bool.false_eq_true, if_false,
        false_and]
      rw [ih hrest]
      cases hb : lastBind rest k with
      | some v => simp
      | none => simp

theorem matchSegs_fst_true (l : List (String × String))
    (hl : ∀ rp ∈ l, startsWithChar ':' rp.1 = true ∨ rp.1 = rp.2)
    (ps : List (String × String)) :
    (matchSegs l ps).1 = true := by
  induction l generalizing ps with
  | nil => rfl
  | cons rp rest ih =>
    obtain ⟨r, p⟩ := rp
    have hrest : ∀ x ∈ rest, startsWithChar ':' x.1 = true ∨ x.1 = x.2 :=
      fun x hx => hl x (List.mem_cons_of_mem _ hx)
    cases hcb : startsWithChar ':' r with
    | true =>
      simp only [matchSegs, hcb, if_true]
      exact ih hrest _
    | false =>
      have hr : r = p := by
        rcases hl (r, p) (List.mem_cons_self _ _) with h | h
        · rw [hcb] at h; exact absurd h (by simp)
        · exact h
      have hne : ¬(r ≠ p) := fun hx => hx hr
      simp only [matchSegs, hcb, hne, Bool.false_eq_true, if_false]
      exact ih hrest _

theorem matches_snd_eq (route : Route) (req : Request) :
    (route.matches req).2 = { req with params := (route.matches req).2.params } := by
  unfold Route.matches
  by_cases h1 : route.method ≠ asciiUpper req.method
  · simp [h1]
  · simp only [h1, if_false]
    by_cases h2 : (splitChar '/' route.path).length ≠ (splitChar '/' req.path).length
    · simp [h2]
    · simp [h2]

theorem matches_fst_congr (route : Route) (req1 req2 : Request)
    (hm : req1.method = req2.method) (hp : req1.path = req2.path) :
    (route.matches req1).1 = (route.matches req2).1 := by
  unfold Route.matches
  rw [hm, hp]
  by_cases h1 : route.method ≠ asciiUpper req2.method
  · simp [h1]
  · simp only [h1, if_false]
    by_cases h2 : (splitChar '/' route.path).length ≠ (splitChar '/' req2.path).length
    · simp [h2]
    · simp only [h2, if_false]
      exact matchSegs_fst_indep _ _ _

/-- The key/value reading of one `&`-separated query piece: split on the
first `=`, a piece without `=` reading as (piece, ""). -/
def keyval (pair : String) : String × String :=
  match splitOnceChar '=' pair with
  | some (k, v) => (k, v)
  | none => (pair, "")

/-- Last-occurrence lookup in a plain list of key/value pairs. -/
def lastVal : List (String × String) → String → Option String
  | [], _ => none
  | (k0, v0) :: rest, k =>
    match lastVal rest k with
    | some v => some v
    | none => if k0 = k then some v0 else none

theorem getAssoc_foldl_insert (l : List (String × String))
    (m0 : List (String × String)) (k : String) :
    getAssoc (l.foldl (fun m kv => insertAssoc m kv.1 kv.2) m0) k =
      match lastVal l k with
      | some v => some v
      | none => getAssoc m0 k := by
  induction l generalizing m0 with
  | nil => rfl
  | cons kv rest ih =>
    obtain ⟨k0, v0⟩ := kv
    simp only [List.foldl_cons, lastVal]
    rw [ih]
    cases hb : lastVal rest k with
    | some v => rfl
    | none =>
      rw [getAssoc_insertAssoc]
      by_cases hk : k0 = k
      · simp [hk]
      · simp [hk]

theorem parse_query_getAssoc (q k : String) :
    getAssoc (Request.parse_query q) k =
      lastVal ((splitChar '&' q).map keyval) k := by
  have hfun : (fun (m : List (String × String)) (pair : String) =>
      match splitOnceChar '=' pair with
      | some (k, v) => insertAssoc m k v
      | none => insertAssoc m pair "") =
      (fun m pair => insertAssoc m (keyval pair).1 (keyval pair).2) := by
    funext m pair
    unfold keyval
    cases h : splitOnceChar '=' pair with
    | none => rfl
    | some kv => obtain ⟨a, b⟩ := kv; rfl
  have hq : Request.parse_query q =
      ((splitChar '&' q).map keyval).foldl (fun m kv => insertAssoc m kv.1 kv.2) [] := by
    unfold Request.parse_query
    rw [hfun, List.foldl_map]
  rw [hq, getAssoc_foldl_insert]
  cases lastVal ((splitChar '&' q).map keyval) k with
  | some v => rfl
  | none => rfl

theorem reason_404_eq : HttpStatus.reason 404 = "Not Found" := rfl

theorem matches_snd_exists (route : Route) (req : Request) :
    ∃ qs, (route.matches req).2 = { req with params := qs } :=
  ⟨_, matches_snd_eq route req⟩

theorem matches_snd_method (route : Route) (req : Request) :
    (route.matches req).2.method = req.method := by
  obtain ⟨qs, he⟩ := matches_snd_exists route req
  rw [he]

theorem matches_snd_path (route : Route) (req : Request) :
    (route.matches req).2.path = req.path := by
  obtain ⟨qs, he⟩ := matches_snd_exists route req
  rw [he]

theorem handleRoutes_spec (routes : List Route) (req : Request) (res : Response)
    (h : res.sent = false) :
    (∀ r, routes.find? (fun x => (x.matches req).1) = some r →
       ∃ req2, handleRoutes routes req res = DispatchResult.invoked r.handler req2) ∧
    (routes.find? (fun x => (x.matches req).1) = none →
       handleRoutes routes req res =
         DispatchResult.notFound ((res.status (StatusArg.Code 404)).send "404 Not Found") ∧
       ((res.status (StatusArg.Code 404)).send "404 Not Found").status_code = 404 ∧
       ((res.status (StatusArg.Code 404)).send "404 Not Found").status_reason = "Not Found" ∧
       ((res.status (StatusArg.Code 404)).send "404 Not Found").sent = true ∧
       ∃ hd, ((res.status (StatusArg.Code 404)).send "404 Not Found").wire =
         res.wire ++ [hd ++ "404 Not Found"]) := by
  induction routes generalizing req with
  | nil =>
    constructor
    · intro r hr
      simp at hr
    · intro _
      refine ⟨rfl, ?_, ?_, ?_, ?_⟩
      · simp [Response.status, Response.send, Response.set_header,
          Response.write_response, h]
      · simp [Response.status, Response.send, Response.set_header,
          Response.write_response, h, reason_404_eq]
      · simp [Response.status, Response.send, Response.set_header,
          Response.write_response, h]
      · simp only [Response.status, Response.send, Response.set_header,
          Response.write_response, h, Bool.false_eq_true, if_false]
        exact ⟨_, rfl⟩
  | cons route rest ih =>
    cases hm : (route.matches req).1 with
    | true =>
      constructor
      · intro r hr
        simp only [List.find?, hm] at hr
        obtain rfl : route = r := by injection hr
        refine ⟨(route.matches req).2, ?_⟩
        simp only [handleRoutes, hm, if_true]
      · intro hnone
        simp only [List.find?, hm] at hnone
        cases hnone
    | false =>
      have hm' : (route.matches req).2.method = req.method := matches_snd_method route req
      have hp' : (route.matches req).2.path = req.path := matches_snd_path route req
      have hcongr : rest.find? (fun x => (x.matches (route.matches req).2).1) =
          rest.find? (fun x => (x.matches req).1) :=
        find?_congr_pred rest _ _
          (fun a _ => matches_fst_congr a (route.matches req).2 req hm' hp')
      have ihx := ih (route.matches req).2
      rw [hcongr] at ihx
      have hred : handleRoutes (route :: rest) req res =
          handleRoutes rest (route.matches req).2 res := by
        simp only [handleRoutes, hm, Bool.false_eq_true, if_false]
      constructor
      · intro r hr
        simp only [List.find?, hm] at hr
        obtain ⟨req2, he⟩ := ihx.1 r hr
        exact ⟨req2, by rw [hred]; exact he⟩
      · intro hnone
        simp only [List.find?, hm] at hnone
        have hrest := ihx.2 hnone
        rw [hred]
        exact hrest

theorem reason_500_eq : HttpStatus.reason 500 = "Internal Server Error" := rfl

/-!
## Claim theorems
-/

/-- Claim C1: for every `Response`, the first terminal call (`send`,
`json`, `html`, or `html_file`) performs exactly one serialized write to
the wire and sets the `sent` flag to true; every later terminal call on
the same `Response` is a no-op that performs no write and leaves status,
headers and the `sent` flag unchanged. -/
theorem response_terminal_single_write (res : Response)
    (fs : String → Option String) (m pth : String) (h : res.sent = false) :
    ((res.send m).sent = true ∧ (res.send m).wire.length = res.wire.length + 1) ∧
    ((res.json m).sent = true ∧ (res.json m).wire.length = res.wire.length + 1) ∧
    ((res.html m).sent = true ∧ (res.html m).wire.length = res.wire.length + 1) ∧
    ((Response.html_file fs res pth).sent = true ∧
      (Response.html_file fs res pth).wire.length = res.wire.length + 1) ∧
    (∀ r : Response, r.sent = true →
      r.send m = r ∧ r.json m = r ∧ r.html m = r ∧ Response.html_file fs r pth = r) := by
  refine ⟨⟨?_, ?_⟩, ⟨?_, ?_⟩, ⟨?_, ?_⟩, ⟨?_, ?_⟩, ?_⟩
  · simp [Response.send, h, Response.set_header, Response.write_response]
  · simp [Response.send, h, Response.set_header, Response.write_response]
  · simp [Response.json, h, Response.set_header, Response.write_response]
  · simp [Response.json, h, Response.set_header, Response.write_response]
  · simp [Response.html, h, Response.set_header, Response.write_response]
  · simp [Response.html, h, Response.set_header, Response.write_response]
  · cases hf : fs pth <;>
      simp [Response.html_file, h, hf, Response.set_header,
        Response.write_response, Response.status]
  · cases hf : fs pth <;>
      simp [Response.html_file, h, hf, Response.set_header,
        Response.write_response, Response.status]
  · intro r hr
    simp [Response.send, Response.json, Response.html, Response.html_file, hr]

/-- Witness for C1 at a concrete fresh response. -/
theorem response_terminal_single_write_witness :
    ((Response.new.send "hi").sent = true ∧
      (Response.new.send "hi").wire.length = Response.new.wire.length + 1) ∧
    ((Response.new.json "hi").sent = true ∧
      (Response.new.json "hi").wire.length = Response.new.wire.length + 1) ∧
    ((Response.new.html "hi").sent = true ∧
      (Response.new.html "hi").wire.length = Response.new.wire.length + 1) ∧
    ((Response.html_file (fun _ => none) Response.new "f.html").sent = true ∧
      (Response.html_file (fun _ => none) Response.new "f.html").wire.length =
        Response.new.wire.length + 1) ∧
    (∀ r : Response, r.sent = true →
      r.send "hi" = r ∧ r.json "hi" = r ∧ r.html "hi" = r ∧
      Response.html_file (fun _ => none) r "f.html" = r) :=
  response_terminal_single_write Response.new (fun _ => none) "hi" "f.html" rfl

/-- A response that has already been finalized, used to exhibit the
behaviour of a second `html_file` call. -/
def alreadySentResponse : Response :=
  { headers := [("HTTP-Server-Powered-By", "rxpress"),
                ("Content-Type", "text/plain")]
    status_enum := 200
    status_code := 200
    status_reason := "OK"
    sent := true
    wire := ["w"] }

/-- Counterexample to claim C7 as stated: on a `Response` whose `sent`
flag is already true, `html_file` with an unreadable path is a complete
no-op — the status stays 200, not 500, and nothing is written. -/
theorem html_file_after_sent_cex :
    Response.html_file (fun _ => none) alreadySentResponse "missing.html" =
      alreadySentResponse ∧
    alreadySentResponse.status_code = 200 := by
  constructor
  · simp [Response.html_file, alreadySentResponse]
  · rfl

/-- Claim C7 (amended): on a `Response` that has not been sent yet,
`html_file` with a path whose contents cannot be read yields status 500
(`Internal Server Error`) with `sent = true`, and performs exactly one
write whose body is the generated HTML message naming the missing path;
on an already-sent `Response` the call is a no-op. -/
theorem html_file_missing_500 (res : Response) (fs : String → Option String)
    (pth : String) (hsent : res.sent = false) (hfs : fs pth = none) :
    (Response.html_file fs res pth).status_code = 500 ∧
    (Response.html_file fs res pth).status_reason = "Internal Server Error" ∧
    (Response.html_file fs res pth).sent = true ∧
    ∃ hd, (Response.html_file fs res pth).wire =
      res.wire ++ [hd ++ missingFileBody pth] := by
  refine ⟨?_, ?_, ?_, ?_⟩
  · simp [Response.html_file, hsent, hfs, Response.set_header, Response.status,
      Response.write_response]
  · simp [Response.html_file, hsent, hfs, Response.set_header, Response.status,
      Response.write_response, reason_500_eq]
  · simp [Response.html_file, hsent, hfs, Response.set_header, Response.status,
      Response.write_response]
  · simp only [Response.html_file, hsent, hfs, Bool.false_eq_true, if_false,
      Response.set_header, Response.status, Response.write_response]
    exact ⟨_, rfl⟩

/-- Witness for the amended C7 at a concrete fresh response. -/
theorem html_file_missing_500_witness :
    (Response.html_file (fun _ => none) Response.new "missing.html").status_code = 500 ∧
    (Response.html_file (fun _ => none) Response.new "missing.html").status_reason =
      "Internal Server Error" ∧
    (Response.html_file (fun _ => none) Response.new "missing.html").sent = true ∧
    ∃ hd, (Response.html_file (fun _ => none) Response.new "missing.html").wire =
      Response.new.wire ++ [hd ++ missingFileBody "missing.html"] :=
  html_file_missing_500 Response.new (fun _ => none) "missing.html" rfl rfl

/-- Claim C9: a bare numeric status code with no entry in the fixed
reason table keeps the numeric code and sets the reason phrase to the
empty string. -/
theorem status_unknown_code (res : Response) (code : Nat)
    (h : HttpStatus.reason code = "") :
    (res.status (StatusArg.Code code)).status_code = code ∧
    (res.status (StatusArg.Code code)).status_reason = "" := by
  unfold Response.status
  simp [h]

/-- Witness for C9 at code 999. -/
theorem status_unknown_code_witness :
    (Response.new.status (StatusArg.Code 999)).status_code = 999 ∧
    (Response.new.status (StatusArg.Code 999)).status_reason = "" :=
  status_unknown_code Response.new 999 (by decide)

/-- Claim C10: every `Response` built by `Response::new` starts at
`200 OK`, unsent, with exactly the single header
`HTTP-Server-Powered-By: rxpress`; consequently any response whose
headers still contain that pair serializes a header line
`HTTP-Server-Powered-By: rxpress`. -/
theorem response_new_defaults (res : Response) :
    (Response.new.status_code = 200 ∧ Response.new.status_reason = "OK" ∧
     Response.new.sent = false ∧
     Response.new.headers = [("HTTP-Server-Powered-By", "rxpress")]) ∧
    (("HTTP-Server-Powered-By", "rxpress") ∈ res.headers →
      "HTTP-Server-Powered-By: rxpress" ∈ headerLines res.headers) := by
  refine ⟨⟨rfl, rfl, rfl, rfl⟩, ?_⟩
  intro hmem
  unfold headerLines
  exact List.mem_map.mpr ⟨("HTTP-Server-Powered-By", "rxpress"), hmem, rfl⟩

/-- Witness for C10 at the fresh response itself. -/
theorem response_new_defaults_witness :
    "HTTP-Server-Powered-By: rxpress" ∈ headerLines Response.new.headers :=
  (response_new_defaults Response.new).2 (by decide)

/-- Claim C2: dispatch invokes the handler of the first route in
registration order that matches the request and no other; when no route
matches after the whole list is scanned, the router itself finalizes the
response via `status(404).send("404 Not Found")`, giving status 404,
reason "Not Found", `sent = true`, and exactly one write whose body is
`404 Not Found`. -/
theorem router_dispatch_first_match (router : Router) (req : Request)
    (res : Response) (h : res.sent = false) :
    (∀ r, router.routes.find? (fun x => (x.matches req).1) = some r →
       ∃ req2, router.handle req res = DispatchResult.invoked r.handler req2) ∧
    (router.routes.find? (fun x => (x.matches req).1) = none →
       router.handle req res =
         DispatchResult.notFound
           ((res.status (StatusArg.Code 404)).send "404 Not Found") ∧
       ((res.status (StatusArg.Code 404)).send "404 Not Found").status_code = 404 ∧
       ((res.status (StatusArg.Code 404)).send "404 Not Found").status_reason =
         "Not Found" ∧
       ((res.status (StatusArg.Code 404)).send "404 Not Found").sent = true ∧
       ∃ hd, ((res.status (StatusArg.Code 404)).send "404 Not Found").wire =
         res.wire ++ [hd ++ "404 Not Found"]) :=
  handleRoutes_spec router.routes req res h

/-- Witness for C2: with two overlapping routes the earlier-registered
handler (id 1) is the one invoked. -/
theorem router_dispatch_first_match_witness :
    ∃ req2,
      ((Router.new.add_route "GET" "/users/:id" 1).add_route "GET" "/users/42" 2).handle
          (Request.new "GET /users/42 HTTP/1.1" [] "") Response.new =
        DispatchResult.invoked 1 req2 :=
  (router_dispatch_first_match
      ((Router.new.add_route "GET" "/users/:id" 1).add_route "GET" "/users/42" 2)
      (Request.new "GET /users/42 HTTP/1.1" [] "") Response.new rfl).1
    (Route.new "GET" "/users/:id" 1) (by decide)

/-- Claim C3: when the route method passes and the pattern has the same
segment count as the request path, with every non-binder segment equal,
the route matches structurally, and looking up any name in the resulting
params returns the request segment of the last `:`-binder for that name
whose request segment is non-empty — in particular an empty request
segment produces no binding while the route still matches. -/
theorem route_param_binding (route : Route) (req : Request)
    (hm : route.method = asciiUpper req.method)
    (hlen : (splitChar '/' route.path).length = (splitChar '/' req.path).length)
    (hseg : ∀ rp ∈ (splitChar '/' route.path).zip (splitChar '/' req.path),
      startsWithChar ':' rp.1 = true ∨ rp.1 = rp.2) :
    (route.matches req).1 = true ∧
    ∀ k, getAssoc (route.matches req).2.params k =
      match lastBind ((splitChar '/' route.path).zip (splitChar '/' req.path)) k with
      | some v => some v
      | none => getAssoc req.params k := by
  have hm2 : ¬(route.method ≠ asciiUpper req.method) := fun hx => hx hm
  have hl2 : ¬((splitChar '/' route.path).length ≠ (splitChar '/' req.path).length) :=
    fun hx => hx hlen
  unfold Route.matches
  simp only [hm2, if_false, hl2]
  constructor
  · exact matchSegs_fst_true _ hseg _
  · intro k
    exact matchSegs_getAssoc _ hseg _ k

/-- Witness for C3: `/users/:id` against `/users/42` matches and binds
`id = "42"`; against `/users/` it still matches but leaves `id` unbound. -/
theorem route_param_binding_witness :
    (((Route.new "GET" "/users/:id" 7).matches
        (Request.new "GET /users/42 HTTP/1.1" [] "")).1 = true ∧
      getAssoc ((Route.new "GET" "/users/:id" 7).matches
        (Request.new "GET /users/42 HTTP/1.1" [] "")).2.params "id" = some "42") ∧
    (((Route.new "GET" "/users/:id" 7).matches
        (Request.new "GET /users/ HTTP/1.1" [] "")).1 = true ∧
      getAssoc ((Route.new "GET" "/users/:id" 7).matches
        (Request.new "GET /users/ HTTP/1.1" [] "")).2.params "id" = none) := by
  have h1 := route_param_binding (Route.new "GET" "/users/:id" 7)
    (Request.new "GET /users/42 HTTP/1.1" [] "") (by decide) (by decide) (by decide)
  have h2 := route_param_binding (Route.new "GET" "/users/:id" 7)
    (Request.new "GET /users/ HTTP/1.1" [] "") (by decide) (by decide) (by decide)
  exact ⟨⟨h1.1, (h1.2 "id").trans (by decide)⟩, ⟨h2.1, (h2.2 "id").trans (by decide)⟩⟩

/-- Counterexample to claim C4 as stated: the candidate route
`GET /users/:id/edit` does not match the request `GET /users/42/delete`,
yet scanning it inserts the binding `id = "42"` into the request's
params — a candidate that is ultimately not the matching route does
mutate `params`. -/
theorem params_candidate_mutation_cex :
    ((Route.new "GET" "/users/:id/edit" 3).matches
        (Request.new "GET /users/42/delete HTTP/1.1" [] "")).1 = false ∧
    ((Route.new "GET" "/users/:id/edit" 3).matches
        (Request.new "GET /users/42/delete HTTP/1.1" [] "")).2.params ≠
      (Request.new "GET /users/42/delete HTTP/1.1" [] "").params := by decide

/-- Claim C4 (amended): `params` is empty at construction time and is
the only `Request` field `Route::matches` mutates — method, path,
headers, version, query and body are all preserved; however, every
candidate route that passes the method and segment-count checks may
insert bindings while its segments are walked, even when it fails a
later literal segment and is not the dispatched route. -/
theorem params_only_field_mutated (line : String)
    (hs : List (String × String)) (b : String) (route : Route) (req : Request) :
    (Request.new line hs b).params = [] ∧
    (route.matches req).2.method = req.method ∧
    (route.matches req).2.path = req.path ∧
    (route.matches req).2.headers = req.headers ∧
    (route.matches req).2.version = req.version ∧
    (route.matches req).2.query = req.query ∧
    (route.matches req).2.body = req.body := by
  refine ⟨rfl, ?_⟩
  obtain ⟨qs, he⟩ := matches_snd_exists route req
  rw [he]
  exact ⟨rfl, rfl, rfl, rfl, rfl, rfl⟩

/-- Counterexample to claim C6 as stated: route method `"get"` and
request method `"get"` are equal under case-insensitive comparison, yet
the route is skipped, because only the request side is upper-cased. -/
theorem method_case_cex :
    eqIgnoreAsciiCase (Route.new "get" "/" 0).method
        (Request.new "get / HTTP/1.1" [] "").method = true ∧
    ((Route.new "get" "/" 0).matches (Request.new "get / HTTP/1.1" [] "")).1 =
      false := by decide

/-- Claim C6 (amended): the method check compares the stored route
method, exactly as registered, against the upper-cased request method: a
route whose stored method differs from `asciiUpper` of the request
method is skipped untouched, and a route can only match when its stored
method equals that upper-cased form — so registration letter case
matters while request letter case does not. -/
theorem method_check_request_uppercased (route : Route) (req : Request) :
    (route.method ≠ asciiUpper req.method → route.matches req = (false, req)) ∧
    ((route.matches req).1 = true → route.method = asciiUpper req.method) := by
  constructor
  · intro hne
    unfold Route.matches
    simp [hne]
  · intro htrue
    by_contra hne
    unfold Route.matches at htrue
    simp [hne] at htrue

/-- Witness for the amended C6: an upper-case registered route is
matched against a lower-case request method, while a lower-case
registered route is skipped even by an upper-case request. -/
theorem method_check_request_uppercased_witness :
    (Route.new "get" "/x" 0).matches (Request.new "GET /x HTTP/1.1" [] "") =
      (false, Request.new "GET /x HTTP/1.1" [] "") ∧
    ((Route.new "GET" "/x" 0).matches (Request.new "get /x HTTP/1.1" [] "")).1 =
      true :=
  ⟨(method_check_request_uppercased (Route.new "get" "/x" 0)
      (Request.new "GET /x HTTP/1.1" [] "")).1 (by decide),
   by decide⟩

/-- Claim C5: a request line that splits on whitespace into exactly
three tokens yields exactly that method and version; the raw target is
cut at its first `?` into the path and the query string, whose map holds,
for each key, the value of the last `&`-separated pair with that key
(each pair split on its first `=`, pairs without `=` valued `""`); any
request line that does not split into exactly three tokens yields the
defaults `GET`, `/`, `HTTP/1.1`. -/
theorem request_line_parsing (line : String) (hs : List (String × String))
    (b : String) :
    (∀ m t v, splitWhitespace line = [m, t, v] →
      (Request.new line hs b).method = m ∧
      (Request.new line hs b).version = v ∧
      (match splitOnceChar '?' t with
       | some (p, q) =>
          (Request.new line hs b).path = p ∧
          ∀ k, getAssoc (Request.new line hs b).query k =
            lastVal ((splitChar '&' q).map keyval) k
       | none =>
          (Request.new line hs b).path = t ∧
          (Request.new line hs b).query = [])) ∧
    ((splitWhitespace line).length ≠ 3 →
      (Request.new line hs b).method = "GET" ∧
      (Request.new line hs b).path = "/" ∧
      (Request.new line hs b).version = "HTTP/1.1") := by
  constructor
  · intro m t v hsplit
    unfold Request.new
    rw [hsplit]
    cases hq : splitOnceChar '?' t with
    | some pq =>
      obtain ⟨p, q⟩ := pq
      simp only [hq]
      refine ⟨?_, ?_, ?_, ?_⟩
      · trivial
      · trivial
      · trivial
      · intro k
        exact parse_query_getAssoc q k
    | none =>
      simp only [hq]
      refine ⟨?_, ?_, ?_, ?_⟩ <;> trivial
  · intro hlen
    unfold Request.new
    rcases hsp : splitWhitespace line with _ | ⟨a, _ | ⟨a2, _ | ⟨a3, _ | ⟨a4, tl⟩⟩⟩⟩
    · exact ⟨rfl, rfl, rfl⟩
    · exact ⟨rfl, rfl, rfl⟩
    · exact ⟨rfl, rfl, rfl⟩
    · rw [hsp] at hlen
      simp at hlen
    · exact ⟨rfl, rfl, rfl⟩

/-- Witness for C5: a concrete well-formed line with duplicate and
bare query keys, and a concrete malformed line falling back to the
defaults. -/
theorem request_line_parsing_witness :
    (Request.new "GET /s?a=1&b&a=2 HTTP/1.1" [] "").method = "GET" ∧
    (Request.new "GET /s?a=1&b&a=2 HTTP/1.1" [] "").version = "HTTP/1.1" ∧
    (Request.new "GET /s?a=1&b&a=2 HTTP/1.1" [] "").path = "/s" ∧
    getAssoc (Request.new "GET /s?a=1&b&a=2 HTTP/1.1" [] "").query "a" = some "2" ∧
    getAssoc (Request.new "GET /s?a=1&b&a=2 HTTP/1.1" [] "").query "b" = some "" ∧
    (Request.new "BAD" [] "").method = "GET" ∧
    (Request.new "BAD" [] "").path = "/" ∧
    (Request.new "BAD" [] "").version = "HTTP/1.1" := by
  have h1 := (request_line_parsing "GET /s?a=1&b&a=2 HTTP/1.1" [] "").1
    "GET" "/s?a=1&b&a=2" "HTTP/1.1" (by decide)
  have h2 := (request_line_parsing "BAD" [] "").2 (by decide)
  have hq : splitOnceChar '?' "/s?a=1&b&a=2" = some ("/s", "a=1&b&a=2") := by decide
  rw [hq] at h1
  exact ⟨h1.1, h1.2.1, h1.2.2.1, (h1.2.2.2 "a").trans (by decide),
    (h1.2.2.2 "b").trans (by decide), h2.1, h2.2.1, h2.2.2⟩

/-- Counterexample to claim C8 as stated: with the header stored under
its canonical lower-case key `content-type`, the case variant
`Content-Type` is found by `header` but not by `header_or` (which falls
to its default) nor by `header_expect` (which errors) — the latter two
accessors are exact-key lookups. -/
theorem header_lookup_cex :
    (Request.new "GET / HTTP/1.1" [("content-type", "application/json")] "").header
        "Content-Type" = some "application/json" ∧
    (Request.new "GET / HTTP/1.1" [("content-type", "application/json")] "").header_or
        "Content-Type" "text/plain" = "text/plain" ∧
    (Request.new "GET / HTTP/1.1"
        [("content-type", "application/json")] "").header_expect "Content-Type" ≠
      Except.ok "application/json" := by
  refine ⟨by decide, by decide, ?_⟩
  intro hx
  simp [Request.header_expect, getAssoc, List.find?] at hx

/-- Claim C8 (amended): with header keys stored canonicalized to
lower-case, `header` is case-insensitive — any case variant of a stored
key finds the stored value — while `header_or` and `header_expect`
perform exact lookups, returning the stored value exactly when queried
with the stored lower-case key. -/
theorem header_lookup_amended (req : Request) (q v d : String)
    (hcanon : ∀ p ∈ req.headers, p.1 = asciiLower p.1)
    (hget : getAssoc req.headers (asciiLower q) = some v) :
    req.header q = some v ∧
    req.header_or (asciiLower q) d = v ∧
    req.header_expect (asciiLower q) = Except.ok v := by
  refine ⟨?_, ?_, ?_⟩
  · unfold Request.header
    have hfind : req.headers.find? (fun p => eqIgnoreAsciiCase p.1 q) =
        req.headers.find? (fun p => p.1 == asciiLower q) := by
      apply find?_congr_pred
      intro a ha
      unfold eqIgnoreAsciiCase
      rw [← hcanon a ha]
    rw [hfind]
    exact hget
  · unfold Request.header_or
    rw [hget]
    rfl
  · unfold Request.header_expect
    rw [hget]

/-- Witness for the amended C8 at a concrete request. -/
theorem header_lookup_amended_witness :
    (Request.new "GET / HTTP/1.1" [("content-type", "application/json")] "").header
        "Content-Type" = some "application/json" ∧
    (Request.new "GET / HTTP/1.1" [("content-type", "application/json")] "").header_or
        (asciiLower "Content-Type") "text/plain" = "application/json" ∧
    (Request.new "GET / HTTP/1.1"
        [("content-type", "application/json")] "").header_expect
        (asciiLower "Content-Type") = Except.ok "application/json" :=
  header_lookup_amended (Request.new "GET / HTTP/1.1"
      [("content-type", "application/json")] "")
    "Content-Type" "application/json" "text/plain" (by decide) (by decide)
